import Mathlib

/-!
Verification of the local provisioning mode of a Terraform Ansible
provisioner (`mode/mode_local.go`).  The Go code is shallowly embedded:
pure helpers become Lean functions, and the effectful orchestration
(`LocalMode.Run`) becomes a state-passing function over an explicit
event trace, with all external effects (temp-file creation, file writes,
SSH dials, template execution, command execution) supplied by an
environment of oracles.
-/

/-- Single quote character, used to build strings that contain quotes. -/
def quoteCh : String := String.singleton (Char.ofNat 39)

/-- Does the second list start with the first list? -/
def listStarts : List Char → List Char → Bool
  | [], _ => true
  | _ :: _, [] => false
  | p :: ps, c :: cs => p == c && listStarts ps cs

/-- Does the list contain the needle as a contiguous sublist? -/
def listHasSub (needle : List Char) : List Char → Bool
  | [] => listStarts needle []
  | c :: cs => listStarts needle (c :: cs) || listHasSub needle cs

/-- Does the string `hay` contain `needle` as a substring? -/
def strContains (hay needle : String) : Bool :=
  listHasSub needle.data hay.data

/-- Replace the first occurrence of `pat` in a character list, as in Go
`strings.Replace(s, pat, rep, 1)`. -/
def replaceFirstL (pat rep : List Char) : List Char → List Char
  | [] => []
  | c :: cs =>
    if listStarts pat (c :: cs) then rep ++ List.drop pat.length (c :: cs)
    else c :: replaceFirstL pat rep cs

/-- Replace the first occurrence of `pat` in `s` with `rep`, as in Go
`strings.Replace(s, pat, rep, 1)`. -/
def replaceFirst (s pat rep : String) : String :=
  String.mk (replaceFirstL pat.data rep.data s.data)

/-- Go `unicode.IsSpace`: the White_Space code points. -/
def goIsSpace (c : Char) : Bool :=
  c == ' ' || c == '\t' || c == '\n' || c == '\r' ||
  c == Char.ofNat 11 || c == Char.ofNat 12 ||
  c == Char.ofNat 0x85 || c == Char.ofNat 0xA0 ||
  c == Char.ofNat 0x1680 ||
  (0x2000 ≤ c.toNat && c.toNat ≤ 0x200A) ||
  c == Char.ofNat 0x2028 || c == Char.ofNat 0x2029 ||
  c == Char.ofNat 0x202F || c == Char.ofNat 0x205F ||
  c == Char.ofNat 0x3000

/-- Go `strings.TrimSpace`: drop leading and trailing white space. -/
def goTrimSpace (s : String) : String :=
  String.mk (((s.data.dropWhile goIsSpace).reverse.dropWhile goIsSpace).reverse)

/-- Content of the known-hosts file built by `LocalMode.writeKnownHosts`:
each entry trimmed, joined with a newline, one trailing newline appended
(`fmt.Sprintf("%s\n", strings.Join(trimmedKnownHosts, "\n"))`). -/
def knownHostsFileContents (knownHosts : List String) : String :=
  String.intercalate "\n" (knownHosts.map goTrimSpace) ++ "\n"

/-- The fixed readiness-probe command template (`moduleCommand`). -/
def moduleCommand : String :=
  "ansible all -i in -m wait_for_connection -c " ++ quoteCh ++ "timeout=600" ++ quoteCh

/-- Result of one `target.fetchHostKey()` attempt: either the dial fails
with an error, or the handshake succeeds and the handle records the host
key offered by the peer (which may be empty). -/
inductive FetchResult where
  | failure (e : String)
  | success (hostKey : String)
deriving DecidableEq

/-- Outcome of the direct host-key discovery (lines 275-303 of
`mode_local.go`): the fetch error returned after the retry budget is
exhausted, the distinct no-host-key-arrived error, or a usable key. -/
inductive DiscoveryResult where
  | fetchErr (e : String)
  | noHostKey
  | gotKey (k : String)
deriving DecidableEq

/-- The retry loop of `LocalMode.Run` (lines 280-298): on each failed
`fetchHostKey` attempt sleep 5000 ms, accumulate the slept time, and
return the fetch error once the accumulated time strictly exceeds
`timeoutMs`; a successful attempt breaks the loop.  Returns the total
number of attempts, the accumulated slept milliseconds, and either the
last fetch error (`Sum.inl`) or the fetched key (`Sum.inr`). -/
def fetchHostKeyLoop (fetch : Nat → FetchResult) (timeoutMs : Nat)
    (attempt : Nat) (timeSpentMs : Nat) : Nat × Nat × (String ⊕ String) :=
  match fetch attempt with
  | .success k => (attempt + 1, timeSpentMs, Sum.inr k)
  | .failure e =>
    if h : timeoutMs < timeSpentMs + 5000 then (attempt + 1, timeSpentMs + 5000, Sum.inl e)
    else fetchHostKeyLoop fetch timeoutMs (attempt + 1) (timeSpentMs + 5000)
termination_by timeoutMs + 5000 - timeSpentMs
decreasing_by
  simp_wf
  omega

/-- Direct host-key discovery: run the retry loop from zero attempts and
zero slept time, then apply the post-loop check `target.hostKey() == ""`
of line 299. -/
def directDiscovery (fetch : Nat → FetchResult) (timeoutMs : Nat) :
    Nat × Nat × DiscoveryResult :=
  match fetchHostKeyLoop fetch timeoutMs 0 0 with
  | (a, t, Sum.inl e) => (a, t, .fetchErr e)
  | (a, t, Sum.inr k) => (a, t, if k == "" then .noHostKey else .gotKey k)

/-- Observable effects of a run. -/
inductive Event where
  | fileCreated (p : String)
  | fileWrote (p : String) (content : String) (mode : Nat)
  | fileRemoved (p : String)
  | netConnect (host : String) (port : Nat)
  | keyscan (host : String) (port : Nat)
  | directFetch (attempts : Nat) (sleptMs : Nat)
  | cmdRun (c : String)
deriving DecidableEq

/-- Events produced only by trust discovery: opening the bastion
connection, the bastion-tunneled key scan, and the direct fetch loop. -/
def isTrustProbeEvent : Event → Bool
  | .netConnect _ _ => true
  | .keyscan _ _ => true
  | .directFetch _ _ => true
  | _ => false

/-- A play, as consumed by `LocalMode.Run` (the `types.Play` collaborator). -/
structure Play where
  enabled : Bool
  hosts : List String
  groups : List String
  inventoryFile : String
deriving DecidableEq

/-- The connection descriptor (`connectionInfo`), including the bastion
sub-descriptor fields and the declared target host key. -/
structure ConnInfo where
  type : String
  host : String
  port : Nat
  user : String
  password : String
  privateKey : String
  bastionPrivateKey : String
  bastionHost : String
  bastionPort : Nat
  bastionUser : String
  bastionHostKey : String
  hostKey : String
  cacert : String
  ntlm : Bool
deriving DecidableEq

/-- Modelled from the spec: the `types.AnsibleSSHSettings` collaborator is
not part of the excerpted source.  Per the spec it carries
`insecure_no_strict_host_key_checking`, `user_known_hosts_file` and
`ssh_keyscan_timeout_seconds`, plus the force-disable override set by
`SetOverrideStrictHostKeyChecking` for resource-less runs. -/
structure AnsibleSSHSettings where
  insecureNoStrictHostKeyChecking : Bool
  userKnownHostsFile : String
  sshKeyscanSeconds : Nat
  overrideStrictHostKeyChecking : Bool
deriving DecidableEq

/-- Modelled from the spec: the effective value consulted by
`InsecureNoStrictHostKeyChecking()` — the configured flag or the
resource-less override. -/
def insecureNoStrictEff (s : AnsibleSSHSettings) : Bool :=
  s.insecureNoStrictHostKeyChecking || s.overrideStrictHostKeyChecking

/-- Modelled from the spec: `SetOverrideStrictHostKeyChecking` forces
strict host key checking off for the rest of the run. -/
def setOverrideStrictHostKeyChecking (s : AnsibleSSHSettings) : AnsibleSSHSettings :=
  { s with overrideStrictHostKeyChecking := true }

/-- Modelled from the spec: `bastion.inUse()` reports whether a bastion
was configured in the connection descriptor. -/
def bastionInUse (ci : ConnInfo) : Bool :=
  ci.bastionHost != ""

/-- Oracles for all external effects of a run. -/
structure Env where
  tempFile : Nat → Except String String
  writeFile : Nat → Option String
  render : Nat → Option String
  bastionConnect : Except String Unit
  bastionScan : Except String String
  fetch : Nat → FetchResult
  toCommand : Play → Except String String
  execCmd : String → Option String

/-- Mutable state threaded through a run: the event trace, the stack of
deferred removals (most recent first), oracle counters, and the two
trust-line lists `knownHostsBastion` / `knownHostsTarget`. -/
structure St where
  evs : List Event
  defs : List String
  tmpN : Nat
  wrN : Nat
  rnN : Nat
  khBastion : List String
  khTarget : List String
deriving DecidableEq

/-- Initial run state. -/
def initSt : St :=
  { evs := [], defs := [], tmpN := 0, wrN := 0, rnN := 0, khBastion := [], khTarget := [] }

/-- Schedule a deferred `os.Remove` of a path. -/
def pushDefer (st : St) (p : String) : St :=
  { st with defs := p :: st.defs }

/-- `ioutil.TempFile`: consult the oracle; on success a file exists at the
returned path. -/
def tempFileOp (env : Env) (st : St) : Except String String × St :=
  match env.tempFile st.tmpN with
  | .error e => (.error e, { st with tmpN := st.tmpN + 1 })
  | .ok p =>
    (.ok p, { st with tmpN := st.tmpN + 1, evs := st.evs ++ [Event.fileCreated p] })

/-- `ioutil.WriteFile`: consult the oracle; on success the content stands
written with the given permission bits. -/
def writeFileOp (env : Env) (st : St) (p content : String) (mode : Nat) :
    Option String × St :=
  match env.writeFile st.wrN with
  | some e => (some e, { st with wrN := st.wrN + 1 })
  | none =>
    (none, { st with wrN := st.wrN + 1, evs := st.evs ++ [Event.fileWrote p content mode] })

/-- `LocalMode.runCommand`: run an external command via the local-exec
provisioner. -/
def execCmdOp (env : Env) (c : String) (st : St) : Option String × St :=
  (env.execCmd c, { st with evs := st.evs ++ [Event.cmdRun c] })

/-- `LocalMode.writePem` (lines 400-417): empty material yields an empty
path and no file; otherwise a temp file is created and the material is
written verbatim with permission bits 0400. -/
def writePem (env : Env) (pk : String) (st : St) : Except String String × St :=
  if pk != "" then
    match tempFileOp env st with
    | (.error e, st) => (.error e, st)
    | (.ok p, st) =>
      match writeFileOp env st p pk 0o400 with
      | (some e, st) => (.error e, st)
      | (none, st) => (.ok p, st)
  else (.ok "", st)

/-- The staging pattern of `LocalMode.Run` lines 187-215: call `writePem`
only when the material is non-empty and schedule removal of the produced
file right after a successful return. -/
def stagePem (env : Env) (material : String) (st : St) : Except String String × St :=
  if material != "" then
    match writePem env material st with
    | (.error e, st) => (.error e, st)
    | (.ok p, st) => (.ok p, pushDefer st p)
  else (.ok "", st)

/-- `LocalMode.writeKnownHosts` (lines 382-398): create a temp file and
write the joined, trimmed trust lines with permission bits 0644. -/
def writeKnownHosts (env : Env) (knownHosts : List String) (st : St) :
    Except String String × St :=
  match tempFileOp env st with
  | (.error e, st) => (.error e, st)
  | (.ok p, st) =>
    match writeFileOp env st p (knownHostsFileContents knownHosts) 0o644 with
    | (some e, st) => (.error e, st)
    | (none, st) => (.ok p, st)

/-- The known-hosts staging pattern of `LocalMode.Run` lines 316-326:
write the file, then schedule its removal. -/
def stageKnownHosts (env : Env) (lines : List String) (st : St) :
    Except String String × St :=
  match writeKnownHosts env lines st with
  | (.error e, st) => (.error e, st)
  | (.ok p, st) => (.ok p, pushDefer st p)

/-- Host record fed to the SSH inventory template
(`inventoryTemplateLocalDataHost`). -/
structure inventoryTemplateLocalDataHost where
  Alias : String
  AnsibleHost : String
  Username : String
  Password : String
deriving DecidableEq

/-- Data fed to the SSH inventory template (`inventoryTemplateLocalData`). -/
structure inventoryTemplateLocalData where
  Hosts : List inventoryTemplateLocalDataHost
  Groups : List String
deriving DecidableEq

/-- Host record fed to the WinRM inventory template
(`windowsInventoryTemplateLocalDataHost`). -/
structure windowsInventoryTemplateLocalDataHost where
  AnsibleHost : String
  ConnectionType : String
  Username : String
  Password : String
  Port : Nat
  NTLM : Bool
  Cacert : String
deriving DecidableEq

/-- Data fed to the WinRM inventory template
(`windowsInventoryTemplateLocalData`). -/
structure windowsInventoryTemplateLocalData where
  Windows : List windowsInventoryTemplateLocalDataHost
deriving DecidableEq

/-- Per-host text produced by one iteration of the range in
`inventoryTemplateLocal` (the `[host:vars]` section sits inside the
range in the template source). -/
def sshHostChunk (h : inventoryTemplateLocalDataHost) : String :=
  h.Alias
  ++ (if h.AnsibleHost != "" then " ansible_host=" ++ h.AnsibleHost else "")
  ++ "\n[host:vars]\n ansible_user=" ++ h.Username
  ++ "\n ansible_ssh_common_args=" ++ quoteCh ++ "-o StrictHostKeyChecking=no" ++ quoteCh
  ++ "\n\n"
  ++ (if h.Password != "" then " ansible_password=" ++ h.Password ++ "\n" else "")

/-- Per-host line inside a group section of `inventoryTemplateLocal`. -/
def sshGroupHostLine (h : inventoryTemplateLocalDataHost) : String :=
  h.Alias
  ++ (if h.AnsibleHost != "" then " ansible_host=" ++ h.AnsibleHost else "")
  ++ "\n"

/-- The output of executing `inventoryTemplateLocal` on the given data
(with Go `text/template` whitespace-trimming semantics applied). -/
def renderSSHInventory (d : inventoryTemplateLocalData) : String :=
  "[host]\n"
  ++ String.join (d.Hosts.map sshHostChunk)
  ++ "\n\n"
  ++ String.join (d.Groups.map (fun g =>
      "[" ++ g ++ "]\n" ++ String.join (d.Hosts.map sshGroupHostLine) ++ "\n\n"))

/-- The ignore-certificate-validation segment of
`windowsInventoryTemplateLocal`: emitted only when `Cacert` is empty. -/
def winIgnoreSegment (h : windowsInventoryTemplateLocalDataHost) : String :=
  if h.Cacert == "" then " ansible_winrm_server_cert_validation=ignore\n\n" else ""

/-- The CA-trust-path segment of `windowsInventoryTemplateLocal`: emitted
only when `Cacert` is non-empty. -/
def winCaTrustSegment (h : windowsInventoryTemplateLocalDataHost) : String :=
  if h.Cacert != "" then " ansible_winrm_ca_trust_path=" ++ h.Cacert ++ "\n" else ""

/-- Per-host text produced by one iteration of the range in
`windowsInventoryTemplateLocal`. -/
def windowsHostChunk (h : windowsInventoryTemplateLocalDataHost) : String :=
  (if h.AnsibleHost != "" then " " ++ h.AnsibleHost else "")
  ++ "\n[windows:vars]\n"
  ++ (if h.Username != "" then " ansible_user=" ++ h.Username ++ "\n" else "")
  ++ (if h.Password != "" then " ansible_password=" ++ h.Password else "")
  ++ (if h.Port != 0 then "\n ansible_port=" ++ toString h.Port ++ "\n" else "")
  ++ (if h.ConnectionType != "" then " ansible_connection=" ++ h.ConnectionType ++ "\n" else "")
  ++ (if h.NTLM then "\n ansible_winrm_transport=true\n" else "")
  ++ winIgnoreSegment h
  ++ " ansible_winrm_read_timeout_sec=900\n ansible_winrm_operation_timeout_sec=800\n\n"
  ++ winCaTrustSegment h

/-- The output of executing `windowsInventoryTemplateLocal` on the given
data. -/
def renderWindowsInventory (d : windowsInventoryTemplateLocalData) : String :=
  "[windows]\n" ++ String.join (d.Windows.map windowsHostChunk)

/-- Host-selection logic of `LocalMode.writeInventory` for SSH
(lines 434-472). -/
def buildSSHTemplateData (connHost connUser connPassword : String)
    (playHosts playGroups : List String) : inventoryTemplateLocalData :=
  { Hosts :=
      if connHost != "" then
        match playHosts with
        | h0 :: _ =>
          if h0 != "" then
            [{ Alias := h0, AnsibleHost := connHost,
               Username := connUser, Password := connPassword }]
          else
            [{ Alias := connHost, AnsibleHost := "",
               Username := connUser, Password := connPassword }]
        | [] =>
          [{ Alias := connHost, AnsibleHost := "",
             Username := connUser, Password := connPassword }]
      else
        (playHosts.filter (fun h => h != "")).map (fun h =>
          { Alias := h, AnsibleHost := "",
            Username := connUser, Password := connPassword }),
    Groups := playGroups }

/-- The single WinRM host record built by `LocalMode.writeInventory`
(lines 473-483). -/
def buildWindowsTemplateData (ci : ConnInfo) : windowsInventoryTemplateLocalData :=
  { Windows := [{ AnsibleHost := ci.host, ConnectionType := ci.type,
                  Username := ci.user, Password := ci.password,
                  Port := ci.port, NTLM := ci.ntlm, Cacert := ci.cacert }] }

/-- `LocalMode.writeInventory` (lines 419-513): when the play supplies no
inventory file, execute the protocol-specific template (a template
failure is logged and otherwise ignored, leaving whatever partial buffer
the oracle reports), then write the buffer to a temp file with
permission bits 0644 and return its path; otherwise return the play's
own path untouched. -/
def writeInventory (env : Env) (ci : ConnInfo) (play : Play) (st : St) :
    Except String String × St :=
  if play.inventoryFile == "" then
    let rendered :=
      if ci.type == "ssh" then
        renderSSHInventory
          (buildSSHTemplateData ci.host ci.user ci.password play.hosts play.groups)
      else if ci.type == "winrm" then
        renderWindowsInventory (buildWindowsTemplateData ci)
      else ""
    let buf :=
      if ci.type == "ssh" || ci.type == "winrm" then
        match env.render st.rnN with
        | none => rendered
        | some partialOut => partialOut
      else ""
    let st := { st with rnN := st.rnN + 1 }
    match tempFileOp env st with
    | (.error e, st) => (.error e, st)
    | (.ok p, st) =>
      match writeFileOp env st p buf 0o644 with
      | (some e, st) => (.error e, st)
      | (none, st) => (.ok p, st)
  else (.ok play.inventoryFile, st)

/-- The error message of the resource-less validation (line 180). -/
def validationErrorMsg : String :=
  "Hosts or Inventory file must be specified on each plays attribute when using null_resource"

/-- The no-host-key-arrived error message of line 300. -/
def noHostKeyMsg (host : String) : String :=
  "expected to receive the host key or password for " ++ quoteCh ++ host ++ quoteCh
  ++ ", but no host key arrived"

/-- Validation phase of `LocalMode.Run` (lines 176-185): for a
resource-less run every play must declare a host or an inventory file,
and strict host key checking is force-disabled. -/
def runValidate (computeResource : Bool) (plays : List Play)
    (s : AnsibleSSHSettings) : Except String AnsibleSSHSettings :=
  if computeResource then .ok s
  else
    match plays.find? (fun p => p.hosts.isEmpty && p.inventoryFile == "") with
    | some _ => .error validationErrorMsg
    | none => .ok (setOverrideStrictHostKeyChecking s)

/-- The direct (no-bastion, non-WinRM) trust branch of `LocalMode.Run`
(lines 270-314): when strict checking is on, the run is under a compute
resource, no user known-hosts file is set, and neither a host key nor a
password is declared, discover the key with the retry loop; the trust
line of line 303 is appended from the declared or fetched key. -/
def resolveTargetTrustDirect (env : Env) (ci : ConnInfo)
    (settings : AnsibleSSHSettings) (computeResource : Bool) (st : St) :
    Except String Unit × St :=
  if !(insecureNoStrictEff settings) then
    if computeResource then
      if settings.userKnownHostsFile == "" then
        if ci.hostKey == "" && ci.password == "" then
          match directDiscovery env.fetch (settings.sshKeyscanSeconds * 1000) with
          | (a, t, res) =>
            let st := { st with evs := st.evs ++ [Event.directFetch a t] }
            match res with
            | .fetchErr e => (.error e, st)
            | .noHostKey => (.error (noHostKeyMsg ci.host), st)
            | .gotKey k =>
              (.ok (), { st with khTarget := st.khTarget ++ [ci.host ++ " " ++ k] })
        else
          (.ok (), { st with khTarget := st.khTarget ++ [ci.host ++ " " ++ ci.hostKey] })
      else (.ok (), st)
    else (.ok (), st)
  else (.ok (), st)

/-- The bastion trust branch of `LocalMode.Run` (lines 225-269): connect
to the bastion, optionally key-scan the target through it (or use the
declared key), and always append the bastion's own trust line. -/
def resolveTrustViaBastion (env : Env) (ci : ConnInfo)
    (settings : AnsibleSSHSettings) (st : St) : Except String Unit × St :=
  let st := { st with evs := st.evs ++ [Event.netConnect ci.bastionHost ci.bastionPort] }
  match env.bastionConnect with
  | .error e => (.error e, st)
  | .ok _ =>
    let inner : Except String Unit × St :=
      if !(insecureNoStrictEff settings) then
        if settings.userKnownHostsFile == "" then
          if ci.hostKey == "" then
            let st := { st with evs := st.evs ++ [Event.keyscan ci.host ci.port] }
            match env.bastionScan with
            | .error e => (.error e, st)
            | .ok scanned =>
              (.ok (), { st with khTarget := st.khTarget ++ [scanned] })
          else
            (.ok (), { st with khTarget := st.khTarget ++ [ci.host ++ " " ++ ci.hostKey] })
        else (.ok (), st)
      else (.ok (), st)
    match inner with
    | (.error e, st) => (.error e, st)
    | (.ok _, st) =>
      (.ok (), { st with khBastion := st.khBastion ++ [ci.bastionHost ++ " " ++ ci.bastionHostKey] })

/-- The per-play loop of `LocalMode.Run` (lines 328-377): skip disabled
plays, write the inventory (scheduling removal when a file was
generated), run the WinRM readiness probe, then build and run the play's
command. -/
def runPlays (env : Env) (ci : ConnInfo) (settings : AnsibleSSHSettings) :
    List Play → St → Except String Unit × St
  | [], st => (.ok (), st)
  | play :: rest, st =>
    if !play.enabled then runPlays env ci settings rest st
    else
      match writeInventory env ci play st with
      | (.error e, st) => (.error e, st)
      | (.ok invFile, st) =>
        match (if invFile != play.inventoryFile then
                ({ play with inventoryFile := invFile }, pushDefer st invFile)
               else (play, st)) with
        | (play, st) =>
          match (if ci.type == "winrm" then
                  execCmdOp env (replaceFirst moduleCommand "in" invFile) st
                 else (none, st)) with
          | (some e, st) => (.error e, st)
          | (none, st) =>
            match env.toCommand play with
            | .error e => (.error e, st)
            | .ok cmd =>
              match execCmdOp env cmd st with
              | (some e, st) => (.error e, st)
              | (none, st) => runPlays env ci settings rest st

/-- The tail of `LocalMode.Run` after trust resolution (lines 316-377):
stage the bastion known-hosts file, then the target one (each with its
deferred removal), then run the plays. -/
def runInnerTail (env : Env) (ci : ConnInfo) (settings : AnsibleSSHSettings)
    (plays : List Play) (st : St) : Except String Unit × St :=
  match stageKnownHosts env st.khBastion st with
  | (.error e, st) => (.error e, st)
  | (.ok _, st) =>
    match stageKnownHosts env st.khTarget st with
    | (.error e, st) => (.error e, st)
    | (.ok _, st) => runPlays env ci settings plays st

/-- The body of `LocalMode.Run` before deferred cleanup fires: validate,
stage the three credential files, resolve trust (bastion branch first,
then the non-WinRM direct branch), stage both known-hosts files, and run
the plays. -/
def runInner (env : Env) (ci : ConnInfo) (plays : List Play)
    (settings : AnsibleSSHSettings) : Except String Unit × St :=
  let computeResource := ci.host != ""
  match runValidate computeResource plays settings with
  | .error e => (.error e, initSt)
  | .ok settings =>
    match stagePem env ci.bastionPrivateKey initSt with
    | (.error e, st) => (.error e, st)
    | (.ok _, st) =>
      match stagePem env ci.privateKey st with
      | (.error e, st) => (.error e, st)
      | (.ok _, st) =>
        match stagePem env ci.cacert st with
        | (.error e, st) => (.error e, st)
        | (.ok cacertPemFile, st) =>
          let ci := { ci with cacert := cacertPemFile }
          match (if bastionInUse ci then resolveTrustViaBastion env ci settings st
                 else if ci.type != "winrm" then
                   resolveTargetTrustDirect env ci settings computeResource st
                 else (.ok (), st)) with
          | (.error e, st) => (.error e, st)
          | (.ok _, st) => runInnerTail env ci settings plays st

/-- Fire the deferred removals (LIFO), as Go `defer` does when `Run`
returns on any path. -/
def flushDefers (st : St) : St :=
  { st with evs := st.evs ++ st.defs.map Event.fileRemoved, defs := [] }

/-- `LocalMode.Run`: the inner body followed by the deferred cleanup. -/
def localModeRun (env : Env) (ci : ConnInfo) (plays : List Play)
    (settings : AnsibleSSHSettings) : Except String Unit × St :=
  match runInner env ci plays settings with
  | (r, st) => (r, flushDefers st)

/-- Permission bits deny read to group and others. -/
def denyNonOwnerRead (mode : Nat) : Bool :=
  mode &&& 0o044 == 0

/-- Every content write offered by the oracle succeeds. -/
def envWritesOk (env : Env) : Prop :=
  ∀ n, env.writeFile n = none

/-- Every temp file offered by the oracle has a non-empty path. -/
def envTempNonEmpty (env : Env) : Prop :=
  ∀ n p, env.tempFile n = .ok p → p ≠ ""

/-- Step relation for the cleanup contract: deferred removals are never
lost, and (when writes succeed and temp paths are non-empty) every file
created across the step has its removal scheduled. -/
def cleanupOk (env : Env) (st st' : St) : Prop :=
  (∀ p, p ∈ st.defs → p ∈ st'.defs)
  ∧ (envWritesOk env → envTempNonEmpty env →
      ∀ p, Event.fileCreated p ∈ st'.evs →
        Event.fileCreated p ∈ st.evs ∨ p ∈ st'.defs)

/-- Step relation for steps that perform no trust probing: only
non-probe events are added and the trust-line lists are untouched. -/
def quietStep (st st' : St) : Prop :=
  (∀ e, e ∈ st'.evs → e ∈ st.evs ∨ isTrustProbeEvent e = false)
  ∧ st'.khBastion = st.khBastion
  ∧ st'.khTarget = st.khTarget

/-- A concrete oracle environment in which every external operation
succeeds. -/
def happyEnv : Env :=
  { tempFile := fun n => .ok ("tmpfile" ++ toString n),
    writeFile := fun _ => none,
    render := fun _ => none,
    bastionConnect := .ok (),
    bastionScan := .ok "scanline",
    fetch := fun _ => FetchResult.failure "dial refused",
    toCommand := fun _ => .ok "ansible-playbook",
    execCmd := fun _ => none }

/-- A concrete environment whose first content write fails. -/
def writeFailEnv : Env :=
  { happyEnv with writeFile := fun _ => some "disk full" }

/-- A concrete SSH settings value: strict checking on, no user
known-hosts file, a 10 second keyscan ceiling. -/
def strictSettings : AnsibleSSHSettings :=
  { insecureNoStrictHostKeyChecking := false, userKnownHostsFile := "",
    sshKeyscanSeconds := 10, overrideStrictHostKeyChecking := false }

/-- The WinRM test descriptor of the spec: host 10.0.0.9, user
Administrator, password p@ss, no CA, NTLM false. -/
def winrmCi : ConnInfo :=
  { type := "winrm", host := "10.0.0.9", port := 5986, user := "Administrator",
    password := "p@ss", privateKey := "", bastionPrivateKey := "", bastionHost := "",
    bastionPort := 0, bastionUser := "", bastionHostKey := "", hostKey := "",
    cacert := "", ntlm := false }

/-- The WinRM descriptor with bastion attributes configured. -/
def winrmBastionCi : ConnInfo :=
  { winrmCi with bastionHost := "bastion1", bastionPort := 22, bastionHostKey := "bkey" }

/-- An SSH descriptor carrying bastion private-key material. -/
def bastionKeyCi : ConnInfo :=
  { type := "ssh", host := "10.0.0.5", port := 22, user := "root",
    password := "pw", privateKey := "", bastionPrivateKey := "BKEY", bastionHost := "",
    bastionPort := 0, bastionUser := "", bastionHostKey := "", hostKey := "",
    cacert := "", ntlm := false }

/-- A resource-less SSH descriptor (empty connection host). -/
def nullCi : ConnInfo :=
  { type := "ssh", host := "", port := 22, user := "root",
    password := "", privateKey := "", bastionPrivateKey := "", bastionHost := "",
    bastionPort := 0, bastionUser := "", bastionHostKey := "", hostKey := "",
    cacert := "", ntlm := false }

/-- A play declaring neither hosts nor an inventory file. -/
def badPlay : Play :=
  { enabled := true, hosts := [], groups := [], inventoryFile := "" }

/-- A play declaring one host and no inventory file. -/
def webPlay : Play :=
  { enabled := true, hosts := ["web1"], groups := [], inventoryFile := "" }

/-- A concrete environment whose template rendering always fails with a
truncated buffer. -/
def renderFailEnv : Env :=
  { happyEnv with render := fun _ => some "[ho" }

/-! ## Helper lemmas -/

theorem dropWhile_head_false {p : Char → Bool} :
    ∀ (l : List Char) (a : Char) (t : List Char), l.dropWhile p = a :: t → p a = false := by
  intro l
  induction l with
  | nil => intro a t h; simp [List.dropWhile] at h
  | cons b bs ih =>
    intro a t h
    rw [List.dropWhile_cons] at h
    by_cases hb : p b
    · rw [if_pos hb] at h
      exact ih a t h
    · rw [if_neg hb] at h
      injection h with h1 h2
      subst h1
      simpa using hb

theorem dropWhile_dropWhile {p : Char → Bool} (l : List Char) :
    (l.dropWhile p).dropWhile p = l.dropWhile p := by
  cases hm : l.dropWhile p with
  | nil => rfl
  | cons a t =>
    exact List.dropWhile_cons_of_neg (by simp [dropWhile_head_false l a t hm])

theorem trimmed_front_fixed (p : Char → Bool) (l : List Char) :
    (((l.dropWhile p).reverse.dropWhile p).reverse).dropWhile p
      = ((l.dropWhile p).reverse.dropWhile p).reverse := by
  cases hm : ((l.dropWhile p).reverse.dropWhile p).reverse with
  | nil => rfl
  | cons a t =>
    have hdecomp : l.dropWhile p
        = ((l.dropWhile p).reverse.dropWhile p).reverse
          ++ ((l.dropWhile p).reverse.takeWhile p).reverse := by
      have h2 := congrArg List.reverse
        (List.takeWhile_append_dropWhile p (l.dropWhile p).reverse)
      rw [List.reverse_append, List.reverse_reverse] at h2
      exact h2.symm
    rw [hm] at hdecomp
    have hn : l.dropWhile p
        = a :: (t ++ ((l.dropWhile p).reverse.takeWhile p).reverse) := by
      simpa using hdecomp
    exact List.dropWhile_cons_of_neg (by simp [dropWhile_head_false l a _ hn])

theorem trimL_idem (p : Char → Bool) (l : List Char) :
    ((((((l.dropWhile p).reverse.dropWhile p).reverse).dropWhile p).reverse.dropWhile p).reverse)
      = ((l.dropWhile p).reverse.dropWhile p).reverse := by
  rw [trimmed_front_fixed, List.reverse_reverse]
  exact trimmed_front_fixed p l

theorem goTrimSpace_idem (s : String) :
    goTrimSpace (goTrimSpace s) = goTrimSpace s := by
  unfold goTrimSpace
  exact congrArg String.mk (trimL_idem goIsSpace s.data)

theorem map_goTrimSpace_id {l : List String} (h : ∀ x ∈ l, goTrimSpace x = x) :
    l.map goTrimSpace = l := by
  induction l with
  | nil => rfl
  | cons a t ih =>
    simp only [List.map_cons, h a (by simp)]
    rw [ih (fun x hx => h x (by simp [hx]))]

/-! ## Claims C4 and C3 -/

/-- C4: the known-hosts content equals each trust line trimmed of
surrounding whitespace, joined with newlines, with exactly one trailing
newline; for the empty list the content is exactly a newline; trimming
is idempotent, so building from already-trimmed lines is the plain join
of the lines themselves. -/
theorem claim_C4_known_hosts_content :
    knownHostsFileContents [] = "\n"
    ∧ (∀ lines, knownHostsFileContents lines
        = String.intercalate "\n" (lines.map goTrimSpace) ++ "\n")
    ∧ (∀ s, goTrimSpace (goTrimSpace s) = goTrimSpace s)
    ∧ (∀ lines, (∀ l ∈ lines, goTrimSpace l = l) →
        knownHostsFileContents lines = String.intercalate "\n" lines ++ "\n") := by
  refine ⟨rfl, fun lines => rfl, goTrimSpace_idem, fun lines h => ?_⟩
  unfold knownHostsFileContents
  rw [map_goTrimSpace_id h]

/-- C4 witness: building from two already-trimmed trust lines joins them
with a newline and appends one trailing newline. -/
theorem claim_C4_known_hosts_content_witness :
    knownHostsFileContents ["h1 ssh-rsa AAA", "h2 ssh-ed25519 BBB"]
      = "h1 ssh-rsa AAA\nh2 ssh-ed25519 BBB\n" := by
  have h := claim_C4_known_hosts_content.2.2.2
    ["h1 ssh-rsa AAA", "h2 ssh-ed25519 BBB"] (by decide)
  rw [h]
  rfl

/-- C3: staging credential material with `writePem` returns an empty path
and performs no file operation for empty material; for non-empty
material it writes the material verbatim to the fresh temp file with
permission bits 0400 (denying non-owner read) and returns the path; a
temp-file creation failure or a write failure is returned as an error,
which `stagePem` (and hence `Run`) propagates, aborting the run. -/
theorem claim_C3_writePem (env : Env) (st : St) (m : String) :
    (m = "" → writePem env m st = (.ok "", st))
    ∧ (m ≠ "" → ∀ p, env.tempFile st.tmpN = .ok p → env.writeFile st.wrN = none →
        writePem env m st
          = (.ok p,
             { st with
                 tmpN := st.tmpN + 1, wrN := st.wrN + 1,
                 evs := st.evs ++ [Event.fileCreated p, Event.fileWrote p m 0o400] })
          ∧ denyNonOwnerRead 0o400 = true)
    ∧ (m ≠ "" → ∀ e, env.tempFile st.tmpN = .error e →
        writePem env m st = (.error e, { st with tmpN := st.tmpN + 1 }))
    ∧ (m ≠ "" → ∀ p e, env.tempFile st.tmpN = .ok p → env.writeFile st.wrN = some e →
        writePem env m st
          = (.error e,
             { st with
                 tmpN := st.tmpN + 1, wrN := st.wrN + 1,
                 evs := st.evs ++ [Event.fileCreated p] }))
    ∧ (∀ e st', writePem env m st = (.error e, st') →
        stagePem env m st = (.error e, st')) := by
  refine ⟨?_, ?_, ?_, ?_, ?_⟩
  · intro hm
    subst hm
    simp [writePem]
  · intro hm p htf hwf
    refine ⟨?_, rfl⟩
    simp [writePem, tempFileOp, writeFileOp, hm, htf, hwf]
  · intro hm e htf
    simp [writePem, tempFileOp, hm, htf]
  · intro hm p e htf hwf
    simp [writePem, tempFileOp, writeFileOp, hm, htf, hwf]
  · intro e st' hw
    have hm : m ≠ "" := by
      intro hm
      subst hm
      simp [writePem] at hw
    simp [stagePem, hm, hw]

/-- C3 witness: concrete staging of non-empty material in an environment
where both file operations succeed. -/
theorem claim_C3_writePem_witness :
    writePem happyEnv "KEYMATERIAL" initSt
      = (.ok "tmpfile0",
         { initSt with
             tmpN := 1, wrN := 1,
             evs := [Event.fileCreated "tmpfile0",
                     Event.fileWrote "tmpfile0" "KEYMATERIAL" 0o400] })
      ∧ denyNonOwnerRead 0o400 = true := by
  have h := (claim_C3_writePem happyEnv initSt "KEYMATERIAL").2.1 (by decide)
    "tmpfile0" rfl rfl
  simpa using h


/-! ## Discovery-loop characterization (claims C1 and C2) -/

theorem fetchHostKeyLoop_spec (fetch : Nat → FetchResult) (T : Nat) :
    ∀ d a t, T - t = d → t ≤ T → t = a * 5000 →
      (∀ n s e, fetchHostKeyLoop fetch T a t = (n, s, Sum.inl e) →
        T < s ∧ s = n * 5000 ∧ (n - 1) * 5000 ≤ T ∧ a < n ∧
        fetch (n - 1) = .failure e ∧
        (∀ i, a ≤ i → i < n → ∃ e', fetch i = .failure e'))
      ∧ (∀ n s k, fetchHostKeyLoop fetch T a t = (n, s, Sum.inr k) →
        s ≤ T ∧ s = (n - 1) * 5000 ∧ a < n ∧
        fetch (n - 1) = .success k ∧
        (∀ i, a ≤ i → i < n - 1 → ∃ e', fetch i = .failure e')) := by
  intro d
  induction d using Nat.strong_induction_on with
  | _ d ih =>
    intro a t hd ht ha
    constructor
    · intro n s e heq
      unfold fetchHostKeyLoop at heq
      split at heq
      · simp at heq
      · rename_i e0 hf
        split at heq
        · rename_i hto
          simp only [Prod.mk.injEq, Sum.inl.injEq] at heq
          obtain ⟨hn, hs, he⟩ := heq
          have hn1 : n - 1 = a := by omega
          refine ⟨by omega, by omega, by omega, by omega, ?_, ?_⟩
          · rw [hn1, ← he]
            exact hf
          · intro i h1 h2
            have hia : i = a := by omega
            subst hia
            exact ⟨e0, hf⟩
        · rename_i hto
          have hrec := ih (T - (t + 5000)) (by omega) (a + 1) (t + 5000) rfl
            (by omega) (by omega)
          obtain ⟨h1, h2, h3, h4, h5, h6⟩ := hrec.1 n s e heq
          refine ⟨h1, h2, h3, by omega, h5, ?_⟩
          intro i hi1 hi2
          rcases Nat.eq_or_lt_of_le hi1 with hia | hia
          · exact ⟨e0, hia ▸ hf⟩
          · exact h6 i (by omega) hi2
    · intro n s k heq
      unfold fetchHostKeyLoop at heq
      split at heq
      · rename_i k0 hf
        simp only [Prod.mk.injEq, Sum.inr.injEq] at heq
        obtain ⟨hn, hs, hk⟩ := heq
        have hn1 : n - 1 = a := by omega
        refine ⟨by omega, by omega, by omega, ?_, ?_⟩
        · rw [hn1, ← hk]
          exact hf
        · intro i hi1 hi2
          exfalso
          omega
      · rename_i e0 hf
        split at heq
        · simp at heq
        · rename_i hto
          have hrec := ih (T - (t + 5000)) (by omega) (a + 1) (t + 5000) rfl
            (by omega) (by omega)
          obtain ⟨h1, h2, h3, h4, h5⟩ := hrec.2 n s k heq
          refine ⟨h1, h2, by omega, h4, ?_⟩
          intro i hi1 hi2
          rcases Nat.eq_or_lt_of_le hi1 with hia | hia
          · exact ⟨e0, hia ▸ hf⟩
          · exact h5 i (by omega) hi2

/-- C1: against a target whose every handshake attempt fails, the direct
discovery loop sleeps a fixed 5000 ms per failed attempt, accumulates
the slept time, and returns the fetch error exactly when the
accumulated sleep strictly exceeds `SSHKeyscanSeconds * 1000` ms (the
last pre-return sleep total is still within the ceiling); it always
terminates after `ceiling / 5000 + 1` attempts, which is 3 attempts for
a 10 second ceiling. -/
theorem claim_C1_direct_discovery_timeout (err : Nat → String) (s : Nat) :
    ∀ n sl r,
      fetchHostKeyLoop (fun i => FetchResult.failure (err i)) (s * 1000) 0 0 = (n, sl, r) →
      r = Sum.inl (err (n - 1))
      ∧ n = s * 1000 / 5000 + 1
      ∧ sl = n * 5000
      ∧ s * 1000 < sl
      ∧ (n - 1) * 5000 ≤ s * 1000
      ∧ (s = 10 → n = 3) := by
  intro n sl r heq
  have hspec := fetchHostKeyLoop_spec (fun i => FetchResult.failure (err i)) (s * 1000)
    (s * 1000) 0 0 rfl (Nat.zero_le _) (by simp)
  cases r with
  | inr k =>
    obtain ⟨-, -, -, hfk, -⟩ := hspec.2 n sl k heq
    simp at hfk
  | inl e =>
    obtain ⟨h1, h2, h3, h4, h5, h6⟩ := hspec.1 n sl e heq
    have he : e = err (n - 1) := by
      have h7 := h5
      simp at h7
      exact h7.symm
    exact ⟨by rw [he], by omega, h2, by omega, h3, by omega⟩

/-- C1 witness: with a 10 second ceiling and every attempt failing, the
loop makes exactly 3 attempts, sleeps 15000 ms, and returns the fetch
error, having strictly exceeded the 10000 ms ceiling. -/
theorem claim_C1_direct_discovery_timeout_witness :
    fetchHostKeyLoop (fun _ => FetchResult.failure "dial refused") (10 * 1000) 0 0
      = (3, 15000, Sum.inl "dial refused")
    ∧ 10 * 1000 < 15000 ∧ (3 : Nat) = 10 * 1000 / 5000 + 1 := by
  have hev : fetchHostKeyLoop (fun _ => FetchResult.failure "dial refused") (10 * 1000) 0 0
      = (3, 15000, Sum.inl "dial refused") := by
    unfold fetchHostKeyLoop
    norm_num
    unfold fetchHostKeyLoop
    norm_num
    unfold fetchHostKeyLoop
    norm_num
  have h := claim_C1_direct_discovery_timeout (fun _ => "dial refused") 10 3 15000
    (Sum.inl "dial refused") hev
  exact ⟨hev, h.2.2.2.1, by omega⟩

/-- C2 counterexample: the claim ties the no-host-key-arrived error to
exceeding the ceiling, but the code returns it only after a handshake
attempt succeeds, hence strictly within the retry budget: with every
attempt succeeding immediately but offering an empty key, the
no-host-key outcome is produced with zero accumulated sleep, which does
not exceed the 10000 ms ceiling. -/
theorem claim_C2_error_classes_counterexample :
    (directDiscovery (fun _ => FetchResult.success "") 10000).2.2 = DiscoveryResult.noHostKey
    ∧ ¬ 10000 < (directDiscovery (fun _ => FetchResult.success "") 10000).2.1 := by
  have h : directDiscovery (fun _ => FetchResult.success "") 10000
      = (1, 0, DiscoveryResult.noHostKey) := by
    unfold directDiscovery
    unfold fetchHostKeyLoop
    norm_num
  rw [h]
  exact ⟨rfl, by norm_num⟩

/-- C2 (amended): the direct discovery path distinguishes two fatal
outcomes: the underlying fetch error is returned exactly on the
timeout path — the ceiling was strictly exceeded and every attempt
failed (no response) — while the distinct no-host-key-arrived error is
returned when some attempt succeeded (the host responded to transport)
but yielded an empty key, which happens with the accumulated sleep
still within the ceiling, not beyond it; both outcomes make the trust
resolver return an error, aborting the run. -/
theorem claim_C2_error_classes (fetch : Nat → FetchResult) (T : Nat) :
    (∀ n sl e, directDiscovery fetch T = (n, sl, DiscoveryResult.fetchErr e) →
      T < sl ∧ fetch (n - 1) = .failure e ∧
      (∀ i, i < n → ∃ e', fetch i = .failure e'))
    ∧ (∀ n sl, directDiscovery fetch T = (n, sl, DiscoveryResult.noHostKey) →
      sl ≤ T ∧ fetch (n - 1) = .success "")
    ∧ (∀ (env : Env) (ci : ConnInfo) (settings : AnsibleSSHSettings) (st : St),
        insecureNoStrictEff settings = false →
        settings.userKnownHostsFile = "" →
        ci.hostKey = "" → ci.password = "" →
        (∀ e, (directDiscovery env.fetch (settings.sshKeyscanSeconds * 1000)).2.2
            = DiscoveryResult.fetchErr e →
          (resolveTargetTrustDirect env ci settings true st).1 = .error e)
        ∧ ((directDiscovery env.fetch (settings.sshKeyscanSeconds * 1000)).2.2
            = DiscoveryResult.noHostKey →
          (resolveTargetTrustDirect env ci settings true st).1
            = .error (noHostKeyMsg ci.host))) := by
  have hspec := fetchHostKeyLoop_spec fetch T T 0 0 rfl (Nat.zero_le _) (by simp)
  refine ⟨?_, ?_, ?_⟩
  · intro n sl e heq
    rcases hl : fetchHostKeyLoop fetch T 0 0 with ⟨a, t', r'⟩
    unfold directDiscovery at heq
    rw [hl] at heq
    cases r' with
    | inl e1 =>
      simp only [Prod.mk.injEq, DiscoveryResult.fetchErr.injEq] at heq
      obtain ⟨ha, ht, he⟩ := heq
      rw [ha, ht, he] at hl
      obtain ⟨h1, h2, h3, h4, h5, h6⟩ := hspec.1 n sl e hl
      exact ⟨h1, h5, fun i hi => h6 i (Nat.zero_le _) hi⟩
    | inr k =>
      simp only [Prod.mk.injEq] at heq
      obtain ⟨-, -, hbad⟩ := heq
      split at hbad <;> simp at hbad
  · intro n sl heq
    rcases hl : fetchHostKeyLoop fetch T 0 0 with ⟨a, t', r'⟩
    unfold directDiscovery at heq
    rw [hl] at heq
    cases r' with
    | inl e1 =>
      simp only [Prod.mk.injEq] at heq
      obtain ⟨-, -, hbad⟩ := heq
      simp at hbad
    | inr k =>
      simp only [Prod.mk.injEq] at heq
      obtain ⟨ha, ht, hnk⟩ := heq
      rw [ha, ht] at hl
      split at hnk
      · rename_i hk
        have hk' : k = "" := by simpa using hk
        rw [hk'] at hl
        obtain ⟨h1, h2, h3, h4, h5⟩ := hspec.2 n sl "" hl
        exact ⟨h1, h4⟩
      · simp at hnk
  · intro env ci settings st hins hukh hhk hpw
    constructor
    · intro e hres
      rcases hd : directDiscovery env.fetch (settings.sshKeyscanSeconds * 1000)
        with ⟨a, t', res⟩
      rw [hd] at hres
      simp only at hres
      subst hres
      simp [resolveTargetTrustDirect, hins, hukh, hhk, hpw, hd]
    · intro hres
      rcases hd : directDiscovery env.fetch (settings.sshKeyscanSeconds * 1000)
        with ⟨a, t', res⟩
      rw [hd] at hres
      simp only at hres
      subst hres
      simp [resolveTargetTrustDirect, hins, hukh, hhk, hpw, hd]

theorem directDiscovery_inl (fetch : Nat → FetchResult) (T n s : Nat) (e : String)
    (h : fetchHostKeyLoop fetch T 0 0 = (n, s, Sum.inl e)) :
    directDiscovery fetch T = (n, s, DiscoveryResult.fetchErr e) := by
  unfold directDiscovery
  rw [h]

/-- C2 witness: a concrete all-failing target with the 10000 ms ceiling
yields the fetch-error outcome after 3 attempts and 15000 ms of sleep,
and the ceiling was indeed strictly exceeded. -/
theorem claim_C2_error_classes_witness :
    directDiscovery (fun _ => FetchResult.failure "dial refused") 10000
      = (3, 15000, DiscoveryResult.fetchErr "dial refused")
    ∧ 10000 < 15000 := by
  have hl : fetchHostKeyLoop (fun _ => FetchResult.failure "dial refused") 10000 0 0
      = (3, 15000, Sum.inl "dial refused") := by
    unfold fetchHostKeyLoop
    norm_num
    unfold fetchHostKeyLoop
    norm_num
    unfold fetchHostKeyLoop
    norm_num
  have hd : directDiscovery (fun _ => FetchResult.failure "dial refused") 10000
      = (3, 15000, DiscoveryResult.fetchErr "dial refused") :=
    directDiscovery_inl _ _ _ _ _ hl
  have h := (claim_C2_error_classes (fun _ => FetchResult.failure "dial refused") 10000).1
    3 15000 "dial refused" hd
  exact ⟨hd, h.1⟩

/-! ## Claims C5 and C6: inventory generation -/

set_option maxRecDepth 40000 in
/-- C5: the SSH host-selection policy: (a) with a connection host and a
non-empty first play alias, the first alias is paired with the
connection host as the explicit address; (b) with a connection host and
no play aliases, the connection host itself is the alias with no
address override; (c) with no connection host, one entry per (non-empty)
play host, each its own alias with no override; and the concrete
rendering for host 10.0.0.5, user root, alias web1, no groups, no
password contains the required sections and no password line. -/
theorem claim_C5_ssh_inventory (connHost connUser connPassword : String)
    (playHosts playGroups : List String) :
    (connHost ≠ "" → ∀ h0 hs, playHosts = h0 :: hs → h0 ≠ "" →
      (buildSSHTemplateData connHost connUser connPassword playHosts playGroups).Hosts
        = [{ Alias := h0, AnsibleHost := connHost,
             Username := connUser, Password := connPassword }])
    ∧ (connHost ≠ "" → playHosts = [] →
      (buildSSHTemplateData connHost connUser connPassword playHosts playGroups).Hosts
        = [{ Alias := connHost, AnsibleHost := "",
             Username := connUser, Password := connPassword }])
    ∧ (connHost = "" → (∀ x ∈ playHosts, x ≠ "") →
      (buildSSHTemplateData connHost connUser connPassword playHosts playGroups).Hosts
        = playHosts.map (fun x =>
            { Alias := x, AnsibleHost := "",
              Username := connUser, Password := connPassword }))
    ∧ strContains (renderSSHInventory (buildSSHTemplateData "10.0.0.5" "root" "" ["web1"] []))
        "[host]\nweb1 ansible_host=10.0.0.5" = true
    ∧ strContains (renderSSHInventory (buildSSHTemplateData "10.0.0.5" "root" "" ["web1"] []))
        "[host:vars]\n ansible_user=root" = true
    ∧ strContains (renderSSHInventory (buildSSHTemplateData "10.0.0.5" "root" "" ["web1"] []))
        (" ansible_ssh_common_args=" ++ quoteCh ++ "-o StrictHostKeyChecking=no" ++ quoteCh)
        = true
    ∧ strContains (renderSSHInventory (buildSSHTemplateData "10.0.0.5" "root" "" ["web1"] []))
        "ansible_password" = false := by
  refine ⟨?_, ?_, ?_, by decide, by decide, by decide, by decide⟩
  · intro hc h0 hs hp h0ne
    subst hp
    have hc' : (connHost != "") = true := by simpa using hc
    have h0' : (h0 != "") = true := by simpa using h0ne
    simp [buildSSHTemplateData, hc', h0']
  · intro hc hp
    subst hp
    have hc' : (connHost != "") = true := by simpa using hc
    simp [buildSSHTemplateData, hc']
  · intro hc hall
    subst hc
    have hf : playHosts.filter (fun x => x != "") = playHosts :=
      List.filter_eq_self.mpr (fun a ha => by simpa using hall a ha)
    simp [buildSSHTemplateData, hf]

/-- C5 witness: the concrete policy-(a) instance of the spec. -/
theorem claim_C5_ssh_inventory_witness :
    (buildSSHTemplateData "10.0.0.5" "root" "" ["web1"] []).Hosts
      = [{ Alias := "web1", AnsibleHost := "10.0.0.5",
           Username := "root", Password := "" }] :=
  (claim_C5_ssh_inventory "10.0.0.5" "root" "" ["web1"] []).1
    (by decide) "web1" [] rfl (by decide)

set_option maxRecDepth 40000 in
/-- C6: in the rendered WinRM inventory the ignore-certificate-validation
directive and the CA-trust-path directive are mutually exclusive: with
empty CA material the ignore directive is emitted and the CA-trust
segment is empty, with non-empty CA material the CA-trust directive is
emitted and the ignore segment is empty; on the spec's concrete
descriptor the rendered output contains the ignore directive and no
CA-trust-path text, and flipping the CA flips both. -/
theorem claim_C6_winrm_cert_exclusivity (h : windowsInventoryTemplateLocalDataHost) :
    (h.Cacert = "" →
      winIgnoreSegment h = " ansible_winrm_server_cert_validation=ignore\n\n"
      ∧ winCaTrustSegment h = "")
    ∧ (h.Cacert ≠ "" →
      winIgnoreSegment h = ""
      ∧ winCaTrustSegment h = " ansible_winrm_ca_trust_path=" ++ h.Cacert ++ "\n")
    ∧ strContains (renderWindowsInventory (buildWindowsTemplateData winrmCi))
        "ansible_winrm_server_cert_validation=ignore" = true
    ∧ strContains (renderWindowsInventory (buildWindowsTemplateData winrmCi))
        "ansible_winrm_ca_trust_path" = false
    ∧ strContains
        (renderWindowsInventory (buildWindowsTemplateData { winrmCi with cacert := "capath" }))
        "ansible_winrm_ca_trust_path=capath" = true
    ∧ strContains
        (renderWindowsInventory (buildWindowsTemplateData { winrmCi with cacert := "capath" }))
        "ansible_winrm_server_cert_validation=ignore" = false := by
  refine ⟨?_, ?_, by decide, by decide, by decide, by decide⟩
  · intro hc
    constructor
    · simp [winIgnoreSegment, hc]
    · simp [winCaTrustSegment, hc]
  · intro hc
    have hc' : (h.Cacert != "") = true := by simpa using hc
    have hc'' : (h.Cacert == "") = false := by simpa using hc
    constructor
    · simp [winIgnoreSegment, hc'']
    · simp [winCaTrustSegment, hc']

/-- C6 witness: the exclusivity applied to the spec's concrete
CA-less WinRM host record. -/
theorem claim_C6_winrm_cert_exclusivity_witness :
    winIgnoreSegment
        { AnsibleHost := "10.0.0.9", ConnectionType := "winrm",
          Username := "Administrator", Password := "p@ss",
          Port := 5986, NTLM := false, Cacert := "" }
      = " ansible_winrm_server_cert_validation=ignore\n\n"
    ∧ winCaTrustSegment
        { AnsibleHost := "10.0.0.9", ConnectionType := "winrm",
          Username := "Administrator", Password := "p@ss",
          Port := 5986, NTLM := false, Cacert := "" }
      = "" :=
  (claim_C6_winrm_cert_exclusivity
    { AnsibleHost := "10.0.0.9", ConnectionType := "winrm",
      Username := "Administrator", Password := "p@ss",
      Port := 5986, NTLM := false, Cacert := "" }).1 rfl

/-! ## Step lemmas for the cleanup and no-probe contracts -/

theorem cleanupOk_refl (env : Env) (st : St) : cleanupOk env st st :=
  ⟨fun _ h => h, fun _ _ _ h => Or.inl h⟩

theorem cleanupOk_trans {env : Env} {st1 st2 st3 : St}
    (h1 : cleanupOk env st1 st2) (h2 : cleanupOk env st2 st3) : cleanupOk env st1 st3 := by
  refine ⟨fun p hp => h2.1 p (h1.1 p hp), fun hW hT p hp => ?_⟩
  rcases h2.2 hW hT p hp with h | h
  · rcases h1.2 hW hT p h with h' | h'
    · exact Or.inl h'
    · exact Or.inr (h2.1 p h')
  · exact Or.inr h

theorem quietStep_refl (st : St) : quietStep st st :=
  ⟨fun _ h => Or.inl h, rfl, rfl⟩

theorem quietStep_trans {st1 st2 st3 : St}
    (h1 : quietStep st1 st2) (h2 : quietStep st2 st3) : quietStep st1 st3 := by
  refine ⟨fun e he => ?_, h2.2.1.trans h1.2.1, h2.2.2.trans h1.2.2⟩
  rcases h2.1 e he with h | h
  · exact h1.1 e h
  · exact Or.inr h

theorem cleanup_created_deferred (env : Env) (st st' : St) (p : String)
    (hdefs : st'.defs = p :: st.defs)
    (hevs : ∀ q, Event.fileCreated q ∈ st'.evs → Event.fileCreated q ∈ st.evs ∨ q = p) :
    cleanupOk env st st' := by
  refine ⟨fun q hq => by rw [hdefs]; exact List.mem_cons_of_mem _ hq, fun _ _ q hq => ?_⟩
  rcases hevs q hq with h | h
  · exact Or.inl h
  · subst h
    exact Or.inr (by rw [hdefs]; exact List.mem_cons_self _ _)

theorem cleanup_writeFailed (env : Env) (st st' : St) (n : Nat) (e : String)
    (hbad : env.writeFile n = some e) (hdefs : st'.defs = st.defs) :
    cleanupOk env st st' := by
  refine ⟨fun q hq => hdefs ▸ hq, fun hW _ _ _ => absurd (hW n) (by simp [hbad])⟩

theorem cleanup_createdEmpty (env : Env) (st st' : St) (n : Nat)
    (hbad : env.tempFile n = .ok "")
    (hdefs : st'.defs = st.defs)
    (hevs : ∀ q, Event.fileCreated q ∈ st'.evs → Event.fileCreated q ∈ st.evs ∨ q = "") :
    cleanupOk env st st' := by
  refine ⟨fun q hq => hdefs ▸ hq, fun _ hT q hq => ?_⟩
  rcases hevs q hq with h | h
  · exact Or.inl h
  · subst h
    exact absurd rfl (hT n "" hbad)

theorem cleanup_noCreate (env : Env) (st st' : St)
    (hdefs : ∀ q, q ∈ st.defs → q ∈ st'.defs)
    (hevs : ∀ q, Event.fileCreated q ∈ st'.evs → Event.fileCreated q ∈ st.evs) :
    cleanupOk env st st' :=
  ⟨hdefs, fun _ _ q hq => Or.inl (hevs q hq)⟩

theorem pushDefer_ok (env : Env) (st : St) (p : String) :
    cleanupOk env st (pushDefer st p) ∧ quietStep st (pushDefer st p) := by
  constructor
  · exact ⟨fun q hq => List.mem_cons_of_mem _ hq, fun _ _ q hq => Or.inl hq⟩
  · exact ⟨fun e he => Or.inl he, rfl, rfl⟩

theorem writePem_cases (env : Env) (m : String) (st : St) :
    (m = "" ∧ writePem env m st = (.ok "", st))
    ∨ (∃ e, env.tempFile st.tmpN = .error e
        ∧ writePem env m st = (.error e, { st with tmpN := st.tmpN + 1 }))
    ∨ (∃ p e, env.tempFile st.tmpN = .ok p ∧ env.writeFile st.wrN = some e
        ∧ writePem env m st = (.error e,
            { st with tmpN := st.tmpN + 1, wrN := st.wrN + 1,
                      evs := st.evs ++ [Event.fileCreated p] }))
    ∨ (∃ p, env.tempFile st.tmpN = .ok p ∧ env.writeFile st.wrN = none
        ∧ writePem env m st = (.ok p,
            { st with tmpN := st.tmpN + 1, wrN := st.wrN + 1,
                      evs := st.evs ++ [Event.fileCreated p, Event.fileWrote p m 0o400] })) := by
  by_cases hm : m = ""
  · exact Or.inl ⟨hm, by simp [writePem, hm]⟩
  · rcases hT : env.tempFile st.tmpN with e | p
    · exact Or.inr (Or.inl ⟨e, rfl, by simp [writePem, tempFileOp, hm, hT]⟩)
    · rcases hW : env.writeFile st.wrN with _ | e
      · exact Or.inr (Or.inr (Or.inr ⟨p, rfl, rfl,
          by simp [writePem, tempFileOp, writeFileOp, hm, hT, hW]⟩))
      · exact Or.inr (Or.inr (Or.inl ⟨p, e, rfl, rfl,
          by simp [writePem, tempFileOp, writeFileOp, hm, hT, hW]⟩))

theorem writeKnownHosts_cases (env : Env) (lines : List String) (st : St) :
    (∃ e, env.tempFile st.tmpN = .error e
        ∧ writeKnownHosts env lines st = (.error e, { st with tmpN := st.tmpN + 1 }))
    ∨ (∃ p e, env.tempFile st.tmpN = .ok p ∧ env.writeFile st.wrN = some e
        ∧ writeKnownHosts env lines st = (.error e,
            { st with tmpN := st.tmpN + 1, wrN := st.wrN + 1,
                      evs := st.evs ++ [Event.fileCreated p] }))
    ∨ (∃ p, env.tempFile st.tmpN = .ok p ∧ env.writeFile st.wrN = none
        ∧ writeKnownHosts env lines st = (.ok p,
            { st with tmpN := st.tmpN + 1, wrN := st.wrN + 1,
                      evs := st.evs ++ [Event.fileCreated p,
                        Event.fileWrote p (knownHostsFileContents lines) 0o644] })) := by
  rcases hT : env.tempFile st.tmpN with e | p
  · exact Or.inl ⟨e, rfl, by simp [writeKnownHosts, tempFileOp, hT]⟩
  · rcases hW : env.writeFile st.wrN with _ | e
    · exact Or.inr (Or.inr ⟨p, rfl, rfl,
        by simp [writeKnownHosts, tempFileOp, writeFileOp, hT, hW]⟩)
    · exact Or.inr (Or.inl ⟨p, e, rfl, rfl,
        by simp [writeKnownHosts, tempFileOp, writeFileOp, hT, hW]⟩)

theorem writeInventory_cases (env : Env) (ci : ConnInfo) (play : Play) (st : St) :
    (play.inventoryFile ≠ ""
        ∧ writeInventory env ci play st = (.ok play.inventoryFile, st))
    ∨ (play.inventoryFile = "" ∧ ∃ e, env.tempFile st.tmpN = .error e
        ∧ writeInventory env ci play st = (.error e,
            { st with rnN := st.rnN + 1, tmpN := st.tmpN + 1 }))
    ∨ (play.inventoryFile = "" ∧ ∃ p e, env.tempFile st.tmpN = .ok p
        ∧ env.writeFile st.wrN = some e
        ∧ writeInventory env ci play st = (.error e,
            { st with rnN := st.rnN + 1, tmpN := st.tmpN + 1, wrN := st.wrN + 1,
                      evs := st.evs ++ [Event.fileCreated p] }))
    ∨ (play.inventoryFile = "" ∧ ∃ p, env.tempFile st.tmpN = .ok p
        ∧ env.writeFile st.wrN = none
        ∧ ∃ content, writeInventory env ci play st = (.ok p,
            { st with rnN := st.rnN + 1, tmpN := st.tmpN + 1, wrN := st.wrN + 1,
                      evs := st.evs ++ [Event.fileCreated p,
                        Event.fileWrote p content 0o644] })) := by
  by_cases hie : play.inventoryFile = ""
  · rcases hT : env.tempFile st.tmpN with e | p
    · exact Or.inr (Or.inl ⟨hie, e, rfl, by simp [writeInventory, tempFileOp, hie, hT]⟩)
    · rcases hW : env.writeFile st.wrN with _ | e
      · refine Or.inr (Or.inr (Or.inr ⟨hie, p, rfl, rfl, ?_, ?_⟩))
        · exact if ci.type == "ssh" || ci.type == "winrm" then
            (match env.render st.rnN with
              | none =>
                if ci.type == "ssh" then
                  renderSSHInventory
                    (buildSSHTemplateData ci.host ci.user ci.password play.hosts play.groups)
                else if ci.type == "winrm" then
                  renderWindowsInventory (buildWindowsTemplateData ci)
                else ""
              | some partialOut => partialOut)
          else ""
        · simp [writeInventory, tempFileOp, writeFileOp, hie, hT, hW]
      · exact Or.inr (Or.inr (Or.inl ⟨hie, p, e, rfl, rfl,
          by simp [writeInventory, tempFileOp, writeFileOp, hie, hT, hW]⟩))
  · exact Or.inl ⟨hie, by simp [writeInventory, hie]⟩

theorem stagePem_ok (env : Env) (m : String) (st : St) :
    cleanupOk env st (stagePem env m st).2 ∧ quietStep st (stagePem env m st).2 := by
  unfold stagePem
  by_cases hm : (m != "") = true
  · rw [if_pos hm]
    rcases writePem_cases env m st with ⟨he, hw⟩ | ⟨e, hT, hw⟩ | ⟨p, e, hT, hW, hw⟩ |
      ⟨p, hT, hW, hw⟩
    · exact absurd he (by simpa using hm)
    · rw [hw]
      exact ⟨cleanup_noCreate env st _ (fun q hq => hq) (fun q hq => hq),
        ⟨fun e he => Or.inl he, rfl, rfl⟩⟩
    · rw [hw]
      refine ⟨cleanup_writeFailed env st _ st.wrN e hW rfl, ⟨fun ev hev => ?_, rfl, rfl⟩⟩
      rcases List.mem_append.mp hev with h | h
      · exact Or.inl h
      · simp at h
        subst h
        exact Or.inr rfl
    · rw [hw]
      constructor
      · refine cleanup_created_deferred env st _ p rfl (fun q hq => ?_)
        rcases List.mem_append.mp hq with h | h
        · exact Or.inl h
        · simp at h
          exact Or.inr h
      · refine ⟨fun ev hev => ?_, rfl, rfl⟩
        have hev2 : ev ∈ st.evs ++ [Event.fileCreated p, Event.fileWrote p m 0o400] := hev
        simp at hev2
        rcases hev2 with h | h | h
        · exact Or.inl h
        · subst h
          exact Or.inr rfl
        · subst h
          exact Or.inr rfl
  · rw [if_neg hm]
    exact ⟨cleanupOk_refl env st, quietStep_refl st⟩

theorem stageKnownHosts_ok (env : Env) (lines : List String) (st : St) :
    cleanupOk env st (stageKnownHosts env lines st).2
    ∧ quietStep st (stageKnownHosts env lines st).2 := by
  unfold stageKnownHosts
  rcases writeKnownHosts_cases env lines st with ⟨e, hT, hw⟩ | ⟨p, e, hT, hW, hw⟩ |
    ⟨p, hT, hW, hw⟩
  · rw [hw]
    exact ⟨cleanup_noCreate env st _ (fun q hq => hq) (fun q hq => hq),
      ⟨fun ev hev => Or.inl hev, rfl, rfl⟩⟩
  · rw [hw]
    refine ⟨cleanup_writeFailed env st _ st.wrN e hW rfl, ⟨fun ev hev => ?_, rfl, rfl⟩⟩
    rcases List.mem_append.mp hev with h | h
    · exact Or.inl h
    · simp at h
      subst h
      exact Or.inr rfl
  · rw [hw]
    constructor
    · refine cleanup_created_deferred env st _ p rfl (fun q hq => ?_)
      rcases List.mem_append.mp hq with h | h
      · exact Or.inl h
      · simp at h
        exact Or.inr h
    · refine ⟨fun ev hev => ?_, rfl, rfl⟩
      have hev2 : ev ∈ st.evs ++ [Event.fileCreated p,
          Event.fileWrote p (knownHostsFileContents lines) 0o644] := hev
      simp at hev2
      rcases hev2 with h | h | h
      · exact Or.inl h
      · subst h
        exact Or.inr rfl
      · subst h
        exact Or.inr rfl

theorem execCmdOp_ok (env : Env) (c : String) (st : St) :
    cleanupOk env st (execCmdOp env c st).2 ∧ quietStep st (execCmdOp env c st).2 := by
  unfold execCmdOp
  constructor
  · refine cleanup_noCreate env st _ (fun q hq => hq) (fun q hq => ?_)
    rcases List.mem_append.mp hq with h | h
    · exact h
    · simp at h
  · refine ⟨fun ev hev => ?_, rfl, rfl⟩
    rcases List.mem_append.mp hev with h | h
    · exact Or.inl h
    · simp at h
      subst h
      exact Or.inr rfl

theorem resolveDirect_cleanup (env : Env) (ci : ConnInfo) (settings : AnsibleSSHSettings)
    (cr : Bool) (st : St) :
    cleanupOk env st (resolveTargetTrustDirect env ci settings cr st).2 := by
  unfold resolveTargetTrustDirect
  repeat' split
  all_goals refine ⟨fun q hq => hq, fun _ _ q hq => Or.inl ?_⟩
  all_goals
    repeat
      first
        | assumption
        | (rcases List.mem_append.mp hq with hq | hq)
        | (simp at hq)

theorem resolveBastion_cleanup (env : Env) (ci : ConnInfo) (settings : AnsibleSSHSettings)
    (st : St) :
    cleanupOk env st (resolveTrustViaBastion env ci settings st).2 := by
  unfold resolveTrustViaBastion
  repeat' split
  all_goals refine ⟨fun q hq => hq, fun _ _ q hq => Or.inl ?_⟩
  all_goals
    repeat
      first
        | assumption
        | (rcases List.mem_append.mp hq with hq | hq)
        | (simp at hq)

theorem flushDefers_quiet (st : St) : quietStep st (flushDefers st) := by
  refine ⟨fun e he => ?_, rfl, rfl⟩
  rcases List.mem_append.mp he with h | h
  · exact Or.inl h
  · rcases List.mem_map.mp h with ⟨p, hp, hpe⟩
    subst hpe
    exact Or.inr rfl

theorem flushDefers_removes (st : St) (p : String) (hp : p ∈ st.defs) :
    Event.fileRemoved p ∈ (flushDefers st).evs :=
  List.mem_append.mpr (Or.inr (List.mem_map.mpr ⟨p, hp, rfl⟩))

theorem flushDefers_created (st : St) (q : String)
    (h : Event.fileCreated q ∈ (flushDefers st).evs) : Event.fileCreated q ∈ st.evs := by
  rcases List.mem_append.mp h with h | h
  · exact h
  · rcases List.mem_map.mp h with ⟨p, hp, hpe⟩
    simp at hpe

theorem writeInventory_relate (env : Env) (ci : ConnInfo) (play : Play) (st : St) :
    quietStep st (writeInventory env ci play st).2
    ∧ (∀ e st', writeInventory env ci play st = (.error e, st') → cleanupOk env st st')
    ∧ (∀ p st', writeInventory env ci play st = (.ok p, st') →
        cleanupOk env st (if p != play.inventoryFile then pushDefer st' p else st')) := by
  rcases writeInventory_cases env ci play st with ⟨hne, hw⟩ | ⟨hie, e, hT, hw⟩ |
    ⟨hie, p, e, hT, hW, hw⟩ | ⟨hie, p, hT, hW, content, hw⟩
  · refine ⟨by rw [hw]; exact quietStep_refl st, ?_, ?_⟩
    · intro e st' h
      rw [hw] at h
      simp at h
    · intro q st' h
      rw [hw] at h
      simp only [Prod.mk.injEq, Except.ok.injEq] at h
      obtain ⟨hq, hs⟩ := h
      subst hq
      subst hs
      rw [if_neg (by simp)]
      exact cleanupOk_refl env st
  · refine ⟨by rw [hw]; exact ⟨fun ev hev => Or.inl hev, rfl, rfl⟩, ?_, ?_⟩
    · intro e' st' h
      rw [hw] at h
      simp only [Prod.mk.injEq, Except.error.injEq] at h
      obtain ⟨he, hs⟩ := h
      subst hs
      exact cleanup_noCreate env st _ (fun q hq => hq) (fun q hq => hq)
    · intro q st' h
      rw [hw] at h
      simp at h
  · constructor
    · rw [hw]
      refine ⟨fun ev hev => ?_, rfl, rfl⟩
      have hev2 : ev ∈ st.evs ++ [Event.fileCreated p] := hev
      simp at hev2
      rcases hev2 with h | h
      · exact Or.inl h
      · subst h
        exact Or.inr rfl
    constructor
    · intro e' st' h
      rw [hw] at h
      simp only [Prod.mk.injEq, Except.error.injEq] at h
      obtain ⟨he, hs⟩ := h
      subst hs
      exact cleanup_writeFailed env st _ st.wrN e hW rfl
    · intro q st' h
      rw [hw] at h
      simp at h
  · constructor
    · rw [hw]
      refine ⟨fun ev hev => ?_, rfl, rfl⟩
      have hev2 : ev ∈ st.evs ++ [Event.fileCreated p, Event.fileWrote p content 0o644] := hev
      simp at hev2
      rcases hev2 with h | h | h
      · exact Or.inl h
      · subst h
        exact Or.inr rfl
      · subst h
        exact Or.inr rfl
    constructor
    · intro e' st' h
      rw [hw] at h
      simp at h
    · intro q st' h
      rw [hw] at h
      simp only [Prod.mk.injEq, Except.ok.injEq] at h
      obtain ⟨hq, hs⟩ := h
      subst hq
      subst hs
      by_cases hpe : p = ""
      · subst hpe
        rw [hie, if_neg (by simp)]
        refine cleanup_createdEmpty env st _ st.tmpN hT rfl (fun q hq => ?_)
        have hq2 : Event.fileCreated q ∈ st.evs ++
            [Event.fileCreated "", Event.fileWrote "" content 0o644] := hq
        simp at hq2
        rcases hq2 with h | h
        · exact Or.inl h
        · exact Or.inr h
      · rw [hie, if_pos (by simpa using hpe)]
        refine cleanup_created_deferred env st _ p rfl (fun q hq => ?_)
        have hq2 : Event.fileCreated q ∈ st.evs ++
            [Event.fileCreated p, Event.fileWrote p content 0o644] := hq
        simp at hq2
        rcases hq2 with h | h
        · exact Or.inl h
        · exact Or.inr h

theorem runPlays_ok (env : Env) (ci : ConnInfo) (settings : AnsibleSSHSettings) :
    ∀ (plays : List Play) (st : St),
      cleanupOk env st (runPlays env ci settings plays st).2
      ∧ quietStep st (runPlays env ci settings plays st).2 := by
  intro plays
  induction plays with
  | nil =>
    intro st
    exact ⟨cleanupOk_refl env st, quietStep_refl st⟩
  | cons play rest ih =>
    intro st
    unfold runPlays
    by_cases hen : (!play.enabled) = true
    · rw [if_pos hen]
      exact ih st
    · rw [if_neg hen]
      have hrel := writeInventory_relate env ci play st
      split
      next e st2 heq =>
        have hq2 : quietStep st st2 := by
          have h := hrel.1
          rw [heq] at h
          exact h
        exact ⟨hrel.2.1 e st2 heq, hq2⟩
      next invFile st2 heq =>
        have hq2 : quietStep st st2 := by
          have h := hrel.1
          rw [heq] at h
          exact h
        have hc3 := hrel.2.2 invFile st2 heq
        by_cases hch : (invFile != play.inventoryFile) = true
        · rw [if_pos hch]
          rw [if_pos hch] at hc3
          have hq3 : quietStep st (pushDefer st2 invFile) :=
            quietStep_trans hq2 (pushDefer_ok env st2 invFile).2
          split
          next play3 st3 heq2 =>
            injection heq2 with hp3 hs3
            subst hp3
            subst hs3
            by_cases hwin : (ci.type == "winrm") = true
            · rw [if_pos hwin]
              split
              next e st4 heq3 =>
                have hstep4 := execCmdOp_ok env
                  (replaceFirst moduleCommand "in" invFile) (pushDefer st2 invFile)
                rw [heq3] at hstep4
                exact ⟨cleanupOk_trans hc3 hstep4.1, quietStep_trans hq3 hstep4.2⟩
              next st4 heq3 =>
                have hstep4 := execCmdOp_ok env
                  (replaceFirst moduleCommand "in" invFile) (pushDefer st2 invFile)
                rw [heq3] at hstep4
                have hc4 : cleanupOk env st st4 := cleanupOk_trans hc3 hstep4.1
                have hq4 : quietStep st st4 := quietStep_trans hq3 hstep4.2
                split
                next e htc => exact ⟨hc4, hq4⟩
                next cmd htc =>
                  split
                  next e st5 heq4 =>
                    have hstep5 := execCmdOp_ok env cmd st4
                    rw [heq4] at hstep5
                    exact ⟨cleanupOk_trans hc4 hstep5.1, quietStep_trans hq4 hstep5.2⟩
                  next st5 heq4 =>
                    have hstep5 := execCmdOp_ok env cmd st4
                    rw [heq4] at hstep5
                    have hrest := ih st5
                    exact ⟨cleanupOk_trans (cleanupOk_trans hc4 hstep5.1) hrest.1,
                      quietStep_trans (quietStep_trans hq4 hstep5.2) hrest.2⟩
            · rw [if_neg hwin]
              split
              next e heq3 => exact absurd heq3 (by simp)
              next st4 heq3 =>
                injection heq3 with ho4 hs4
                subst hs4
                split
                next e htc => exact ⟨hc3, hq3⟩
                next cmd htc =>
                  split
                  next e st5 heq4 =>
                    have hstep5 := execCmdOp_ok env cmd (pushDefer st2 invFile)
                    rw [heq4] at hstep5
                    exact ⟨cleanupOk_trans hc3 hstep5.1, quietStep_trans hq3 hstep5.2⟩
                  next st5 heq4 =>
                    have hstep5 := execCmdOp_ok env cmd (pushDefer st2 invFile)
                    rw [heq4] at hstep5
                    have hrest := ih st5
                    exact ⟨cleanupOk_trans (cleanupOk_trans hc3 hstep5.1) hrest.1,
                      quietStep_trans (quietStep_trans hq3 hstep5.2) hrest.2⟩
        · rw [if_neg hch]
          rw [if_neg hch] at hc3
          split
          next play3 st3 heq2 =>
            injection heq2 with hp3 hs3
            subst hp3
            subst hs3
            by_cases hwin : (ci.type == "winrm") = true
            · rw [if_pos hwin]
              split
              next e st4 heq3 =>
                have hstep4 := execCmdOp_ok env
                  (replaceFirst moduleCommand "in" invFile) st2
                rw [heq3] at hstep4
                exact ⟨cleanupOk_trans hc3 hstep4.1, quietStep_trans hq2 hstep4.2⟩
              next st4 heq3 =>
                have hstep4 := execCmdOp_ok env
                  (replaceFirst moduleCommand "in" invFile) st2
                rw [heq3] at hstep4
                have hc4 : cleanupOk env st st4 := cleanupOk_trans hc3 hstep4.1
                have hq4 : quietStep st st4 := quietStep_trans hq2 hstep4.2
                split
                next e htc => exact ⟨hc4, hq4⟩
                next cmd htc =>
                  split
                  next e st5 heq4 =>
                    have hstep5 := execCmdOp_ok env cmd st4
                    rw [heq4] at hstep5
                    exact ⟨cleanupOk_trans hc4 hstep5.1, quietStep_trans hq4 hstep5.2⟩
                  next st5 heq4 =>
                    have hstep5 := execCmdOp_ok env cmd st4
                    rw [heq4] at hstep5
                    have hrest := ih st5
                    exact ⟨cleanupOk_trans (cleanupOk_trans hc4 hstep5.1) hrest.1,
                      quietStep_trans (quietStep_trans hq4 hstep5.2) hrest.2⟩
            · rw [if_neg hwin]
              split
              next e heq3 => exact absurd heq3 (by simp)
              next st4 heq3 =>
                injection heq3 with ho4 hs4
                subst hs4
                split
                next e htc => exact ⟨hc3, hq2⟩
                next cmd htc =>
                  split
                  next e st5 heq4 =>
                    have hstep5 := execCmdOp_ok env cmd st2
                    rw [heq4] at hstep5
                    exact ⟨cleanupOk_trans hc3 hstep5.1, quietStep_trans hq2 hstep5.2⟩
                  next st5 heq4 =>
                    have hstep5 := execCmdOp_ok env cmd st2
                    rw [heq4] at hstep5
                    have hrest := ih st5
                    exact ⟨cleanupOk_trans (cleanupOk_trans hc3 hstep5.1) hrest.1,
                      quietStep_trans (quietStep_trans hq2 hstep5.2) hrest.2⟩

theorem runInnerTail_ok (env : Env) (ci : ConnInfo) (settings : AnsibleSSHSettings)
    (plays : List Play) (st : St) :
    cleanupOk env st (runInnerTail env ci settings plays st).2
    ∧ quietStep st (runInnerTail env ci settings plays st).2 := by
  unfold runInnerTail
  split
  next e st5 heq5 =>
    have h := stageKnownHosts_ok env st.khBastion st
    rw [heq5] at h
    exact h
  next p5 st5 heq5 =>
    have h5 := stageKnownHosts_ok env st.khBastion st
    rw [heq5] at h5
    split
    next e st6 heq6 =>
      have h := stageKnownHosts_ok env st5.khTarget st5
      rw [heq6] at h
      exact ⟨cleanupOk_trans h5.1 h.1, quietStep_trans h5.2 h.2⟩
    next p6 st6 heq6 =>
      have h6 := stageKnownHosts_ok env st5.khTarget st5
      rw [heq6] at h6
      have hr := runPlays_ok env ci settings plays st6
      exact ⟨cleanupOk_trans (cleanupOk_trans h5.1 h6.1) hr.1,
        quietStep_trans (quietStep_trans h5.2 h6.2) hr.2⟩

theorem runInner_cleanup (env : Env) (ci : ConnInfo) (plays : List Play)
    (settings : AnsibleSSHSettings) :
    cleanupOk env initSt (runInner env ci plays settings).2 := by
  simp only [runInner]
  split
  · exact cleanupOk_refl env initSt
  next s1 hval =>
    split
    next e st1 heq1 =>
      have h := (stagePem_ok env ci.bastionPrivateKey initSt).1
      rw [heq1] at h
      exact h
    next p1 st1 heq1 =>
      have hc1 := (stagePem_ok env ci.bastionPrivateKey initSt).1
      rw [heq1] at hc1
      split
      next e st2 heq2 =>
        have h := (stagePem_ok env ci.privateKey st1).1
        rw [heq2] at h
        exact cleanupOk_trans hc1 h
      next p2 st2 heq2 =>
        have hc2 := (stagePem_ok env ci.privateKey st1).1
        rw [heq2] at hc2
        have hc2' := cleanupOk_trans hc1 hc2
        split
        next e st3 heq3 =>
          have h := (stagePem_ok env ci.cacert st2).1
          rw [heq3] at h
          exact cleanupOk_trans hc2' h
        next p3 st3 heq3 =>
          have hc3 := (stagePem_ok env ci.cacert st2).1
          rw [heq3] at hc3
          have hc3' := cleanupOk_trans hc2' hc3
          by_cases hbas : (bastionInUse { ci with cacert := p3 }) = true
          · rw [if_pos hbas]
            split
            next e st4 heq4 =>
              have h := resolveBastion_cleanup env { ci with cacert := p3 } s1 st3
              rw [heq4] at h
              exact cleanupOk_trans hc3' h
            next u st4 heq4 =>
              have hc4 := resolveBastion_cleanup env { ci with cacert := p3 } s1 st3
              rw [heq4] at hc4
              exact cleanupOk_trans (cleanupOk_trans hc3' hc4)
                (runInnerTail_ok env { ci with cacert := p3 } s1 plays st4).1
          · rw [if_neg hbas]
            by_cases htyp : (ci.type != "winrm") = true
            · rw [if_pos htyp]
              split
              next e st4 heq4 =>
                have h := resolveDirect_cleanup env { ci with cacert := p3 } s1
                  (ci.host != "") st3
                rw [heq4] at h
                exact cleanupOk_trans hc3' h
              next u st4 heq4 =>
                have hc4 := resolveDirect_cleanup env { ci with cacert := p3 } s1
                  (ci.host != "") st3
                rw [heq4] at hc4
                exact cleanupOk_trans (cleanupOk_trans hc3' hc4)
                  (runInnerTail_ok env { ci with cacert := p3 } s1 plays st4).1
            · rw [if_neg htyp]
              exact cleanupOk_trans hc3'
                (runInnerTail_ok env { ci with cacert := p3 } s1 plays st3).1

theorem runInner_quiet (env : Env) (ci : ConnInfo) (plays : List Play)
    (settings : AnsibleSSHSettings) (hty : ci.type = "winrm") (hb : ci.bastionHost = "") :
    quietStep initSt (runInner env ci plays settings).2 := by
  simp only [runInner]
  split
  · exact quietStep_refl initSt
  next s1 hval =>
    split
    next e st1 heq1 =>
      have h := (stagePem_ok env ci.bastionPrivateKey initSt).2
      rw [heq1] at h
      exact h
    next p1 st1 heq1 =>
      have hq1 := (stagePem_ok env ci.bastionPrivateKey initSt).2
      rw [heq1] at hq1
      split
      next e st2 heq2 =>
        have h := (stagePem_ok env ci.privateKey st1).2
        rw [heq2] at h
        exact quietStep_trans hq1 h
      next p2 st2 heq2 =>
        have hq2 := (stagePem_ok env ci.privateKey st1).2
        rw [heq2] at hq2
        have hq2' := quietStep_trans hq1 hq2
        split
        next e st3 heq3 =>
          have h := (stagePem_ok env ci.cacert st2).2
          rw [heq3] at h
          exact quietStep_trans hq2' h
        next p3 st3 heq3 =>
          have hq3 := (stagePem_ok env ci.cacert st2).2
          rw [heq3] at hq3
          have hq3' := quietStep_trans hq2' hq3
          rw [if_neg (by simp [bastionInUse, hb] :
              ¬ (bastionInUse { ci with cacert := p3 }) = true)]
          rw [if_neg (by simp [hty] : ¬ (ci.type != "winrm") = true)]
          exact quietStep_trans hq3'
            (runInnerTail_ok env { ci with cacert := p3 } s1 plays st3).2

/-! ## Claims C7, C8, C9 and C10 -/

/-- C7: for a resource-less run (empty connection host): if any play
declares no hosts and no inventory file, `Run` returns the ConfigError
with an empty event trace — before any file is written or any network
activity; otherwise validation succeeds and yields settings whose
effective strict host-key checking is force-disabled for the rest of
the run. -/
theorem claim_C7_null_resource_validation (env : Env) (ci : ConnInfo)
    (plays : List Play) (settings : AnsibleSSHSettings) (hhost : ci.host = "") :
    ((∃ p ∈ plays, p.hosts = [] ∧ p.inventoryFile = "") →
      (localModeRun env ci plays settings).1 = .error validationErrorMsg
      ∧ (localModeRun env ci plays settings).2.evs = [])
    ∧ ((∀ p ∈ plays, p.hosts ≠ [] ∨ p.inventoryFile ≠ "") →
      runValidate (ci.host != "") plays settings
        = .ok (setOverrideStrictHostKeyChecking settings)
      ∧ insecureNoStrictEff (setOverrideStrictHostKeyChecking settings) = true) := by
  have hcr : (ci.host != "") = false := by simp [hhost]
  constructor
  · rintro ⟨p, hp, hh, hi⟩
    have hval : runValidate (ci.host != "") plays settings = .error validationErrorMsg := by
      rw [hcr]
      unfold runValidate
      rw [if_neg Bool.false_ne_true]
      cases hfind : plays.find? (fun q => q.hosts.isEmpty && q.inventoryFile == "") with
      | none =>
        rw [List.find?_eq_none] at hfind
        exact absurd (by simp [hh, hi] : (p.hosts.isEmpty && p.inventoryFile == "") = true)
          (by simpa using hfind p hp)
      | some q => rfl
    have hri : runInner env ci plays settings = (.error validationErrorMsg, initSt) := by
      simp only [runInner]
      rw [hval]
    constructor
    · unfold localModeRun
      rw [hri]
    · unfold localModeRun
      rw [hri]
      rfl
  · intro hall
    have hval : runValidate (ci.host != "") plays settings
        = .ok (setOverrideStrictHostKeyChecking settings) := by
      rw [hcr]
      unfold runValidate
      rw [if_neg Bool.false_ne_true]
      cases hfind : plays.find? (fun q => q.hosts.isEmpty && q.inventoryFile == "") with
      | none => rfl
      | some q =>
        have hq := List.find?_some hfind
        have hqm := List.mem_of_find?_eq_some hfind
        simp at hq
        rcases hall q hqm with h | h
        · exact absurd hq.1 h
        · exact absurd hq.2 h
    exact ⟨hval, by simp [insecureNoStrictEff, setOverrideStrictHostKeyChecking]⟩

/-- C7 witness: a resource-less run with one play declaring neither
hosts nor an inventory file fails with the ConfigError and an empty
event trace. -/
theorem claim_C7_null_resource_validation_witness :
    (localModeRun happyEnv nullCi [badPlay] strictSettings).1 = .error validationErrorMsg
    ∧ (localModeRun happyEnv nullCi [badPlay] strictSettings).2.evs = [] :=
  (claim_C7_null_resource_validation happyEnv nullCi [badPlay] strictSettings rfl).1
    ⟨badPlay, by simp, rfl, rfl⟩

/-- C9: when template execution fails, `writeInventory` logs and carries
on: it writes the (possibly truncated or empty) buffer reported by the
rendering oracle to the temporary inventory file and returns that path
with no error. -/
theorem claim_C9_render_failure_ignored (env : Env) (ci : ConnInfo) (play : Play)
    (st : St) (partialOut p : String)
    (hinv : play.inventoryFile = "")
    (hty : ci.type = "ssh" ∨ ci.type = "winrm")
    (hrender : env.render st.rnN = some partialOut)
    (htf : env.tempFile st.tmpN = .ok p)
    (hwf : env.writeFile st.wrN = none) :
    writeInventory env ci play st
      = (.ok p,
         { st with
             rnN := st.rnN + 1, tmpN := st.tmpN + 1, wrN := st.wrN + 1,
             evs := st.evs ++ [Event.fileCreated p, Event.fileWrote p partialOut 0o644] }) := by
  rcases hty with h | h <;>
    simp [writeInventory, hinv, h, tempFileOp, writeFileOp, hrender, htf, hwf]

/-- C9 witness: a failing SSH-shape rendering leaves a truncated buffer,
which is still written out and the path returned without error. -/
theorem claim_C9_render_failure_ignored_witness :
    writeInventory renderFailEnv { nullCi with host := "10.0.0.5" } webPlay initSt
      = (.ok "tmpfile0",
         { initSt with
             rnN := 1, tmpN := 1, wrN := 1,
             evs := [Event.fileCreated "tmpfile0",
                     Event.fileWrote "tmpfile0" "[ho" 0o644] }) := by
  have h := claim_C9_render_failure_ignored renderFailEnv
    { nullCi with host := "10.0.0.5" } webPlay initSt "[ho" "tmpfile0"
    rfl (Or.inl rfl) rfl rfl rfl
  simpa using h

set_option maxRecDepth 100000 in
/-- C8 counterexample: a run whose first content write fails after the
temp file was created leaks that file: the run aborts with the write
error, the creation event is in the trace, but no removal event is. -/
theorem claim_C8_cleanup_counterexample :
    (localModeRun writeFailEnv bastionKeyCi [] strictSettings).1 = .error "disk full"
    ∧ Event.fileCreated "tmpfile0"
        ∈ (localModeRun writeFailEnv bastionKeyCi [] strictSettings).2.evs
    ∧ Event.fileRemoved "tmpfile0"
        ∉ (localModeRun writeFailEnv bastionKeyCi [] strictSettings).2.evs := by
  exact ⟨rfl, by decide, by decide⟩

/-- C8 (amended): every ephemeral file created during a run — bastion,
target and CA credential files, both known-hosts files, and generated
per-play inventory files — has its removal scheduled right after its
creating helper returns, so when `Run` returns, on every exit path, all
of them carry a matching removal event, provided every content write
offered by the oracle succeeds and temp paths are non-empty; when a
content write fails after the temp file was created, that single file
is leaked (see the counterexample). -/
theorem claim_C8_cleanup (env : Env) (ci : ConnInfo) (plays : List Play)
    (settings : AnsibleSSHSettings)
    (hW : envWritesOk env) (hT : envTempNonEmpty env) :
    ∀ p, Event.fileCreated p ∈ (localModeRun env ci plays settings).2.evs →
      Event.fileRemoved p ∈ (localModeRun env ci plays settings).2.evs := by
  intro p hp
  have hcl := runInner_cleanup env ci plays settings
  rcases hri : runInner env ci plays settings with ⟨r, stI⟩
  rw [hri] at hcl
  have hflush : (localModeRun env ci plays settings).2 = flushDefers stI := by
    unfold localModeRun
    rw [hri]
  rw [hflush] at hp ⊢
  have hc : Event.fileCreated p ∈ stI.evs := flushDefers_created stI p hp
  rcases hcl.2 hW hT p hc with h | h
  · simp [initSt] at h
  · exact flushDefers_removes stI p h

set_option maxRecDepth 100000 in
/-- C8 witness: in a fully succeeding run that stages a bastion key, the
created temp file has its removal event in the final trace. -/
theorem claim_C8_cleanup_witness :
    Event.fileRemoved "tmpfile0"
      ∈ (localModeRun happyEnv bastionKeyCi [] strictSettings).2.evs := by
  refine claim_C8_cleanup happyEnv bastionKeyCi [] strictSettings
    (fun _ => rfl) ?_ "tmpfile0" (by decide)
  intro n p h
  injection h with h2
  subst h2
  intro hcon
  have hlen := congrArg String.length hcon
  simp at hlen
  exact absurd hlen.1 (by decide)

set_option maxRecDepth 100000 in
/-- C10 counterexample: for a WinRM descriptor with bastion attributes
configured, `Run` does evaluate the bastion branch: it opens the
bastion connection (and key-scans the target through it), because the
`bastion.inUse()` test precedes the WinRM guard. -/
theorem claim_C10_winrm_bastion_counterexample :
    winrmBastionCi.type = "winrm"
    ∧ Event.netConnect "bastion1" 22
        ∈ (localModeRun happyEnv winrmBastionCi [] strictSettings).2.evs
    ∧ Event.keyscan "10.0.0.9" 5986
        ∈ (localModeRun happyEnv winrmBastionCi [] strictSettings).2.evs
    ∧ (localModeRun happyEnv winrmBastionCi [] strictSettings).2.khBastion ≠ [] := by
  exact ⟨rfl, by decide, by decide, by decide⟩

/-- C10 (amended): for a WinRM run whose descriptor has no bastion
configured, the trust logic is not evaluated: no bastion connection, no
key scan, no direct fetch appears in the trace, and no trust line is
produced for either hop; with bastion attributes configured the bastion
branch does run (see the counterexample). -/
theorem claim_C10_winrm_trust_not_evaluated (env : Env) (ci : ConnInfo)
    (plays : List Play) (settings : AnsibleSSHSettings)
    (hty : ci.type = "winrm") (hb : ci.bastionHost = "") :
    (∀ e ∈ (localModeRun env ci plays settings).2.evs, isTrustProbeEvent e = false)
    ∧ (localModeRun env ci plays settings).2.khBastion = []
    ∧ (localModeRun env ci plays settings).2.khTarget = [] := by
  have hq := runInner_quiet env ci plays settings hty hb
  rcases hri : runInner env ci plays settings with ⟨r, stI⟩
  rw [hri] at hq
  have hq2 : quietStep initSt (flushDefers stI) :=
    quietStep_trans hq (flushDefers_quiet stI)
  have hflush : (localModeRun env ci plays settings).2 = flushDefers stI := by
    unfold localModeRun
    rw [hri]
  refine ⟨fun e he => ?_, ?_, ?_⟩
  · rw [hflush] at he
    rcases hq2.1 e he with h | h
    · simp [initSt] at h
    · exact h
  · rw [hflush, hq2.2.1]
    rfl
  · rw [hflush, hq2.2.2]
    rfl

/-- C10 witness: the spec's WinRM descriptor (no bastion) yields a run
with empty trust-line lists. -/
theorem claim_C10_winrm_trust_not_evaluated_witness :
    (localModeRun happyEnv winrmCi [] strictSettings).2.khBastion = []
    ∧ (localModeRun happyEnv winrmCi [] strictSettings).2.khTarget = [] :=
  ⟨(claim_C10_winrm_trust_not_evaluated happyEnv winrmCi [] strictSettings rfl rfl).2.1,
   (claim_C10_winrm_trust_not_evaluated happyEnv winrmCi [] strictSettings rfl rfl).2.2⟩
